import Mathlib

/-!
Formal model of the quest-progression and character-progression core of
the RPG chat bot (source files `bot.py` and `models.py`).

Persistent table rows (`rpg_users`, `quests`, `quest_progress`) are
modelled as Lean structures; a database session is explicit
list-of-rows state; `query(...).first()` becomes `List.find?`; an ORM
mutation of a fetched row becomes an update of the first matching list
element.  The transient `context.user_data` flags become a `UserData`
record.  The GigaChat HTTP calls are modelled by oracle arguments: an
`Option String` that is `some body` on transport success and `none` on
a transport/protocol failure.
-/

/-- Row of table `rpg_users` (`models.py`, class `RPGUser`): the player
identity together with the embedded RPG-character fields.
`character_name` and `character_class` are nullable columns, hence
`Option String`. -/
structure RPGUser where
  id : Nat
  character_name : Option String
  character_class : Option String
  level : Nat
  experience : Nat
deriving Repr, DecidableEq

/-- Row of table `quests` (`models.py`, class `Quest`). -/
structure Quest where
  id : Nat
  title : String
  required_level : Nat
  reward_exp : Nat
  final_result : String
  is_active : Bool
deriving Repr, DecidableEq

/-- Row of table `quest_progress` (`models.py`, class `QuestProgress`). -/
structure QuestProgress where
  user_id : Nat
  quest_id : Nat
  current_stage : Nat
  is_completed : Bool
deriving Repr, DecidableEq

/-- The transient `context.user_data` flags used by `bot.py`:
`creating_character`, `step` and `in_quest`. -/
structure UserData where
  creating_character : Bool
  step : Nat
  in_quest : Bool
deriving Repr, DecidableEq

/-- Whole observable state handled by one player's handlers: the
player's `rpg_users` row, the quest catalog, the player's
`quest_progress` rows, and the transient dialog flags. -/
structure BotState where
  user : RPGUser
  quests : List Quest
  progresses : List QuestProgress
  data : UserData
deriving Repr, DecidableEq

/-- The level-up loop of `handle_quest_dialog` (`bot.py`):
`while db_user.experience >= 100: experience -= 100; level += 1`. -/
def levelLoop (lvl exp : Nat) : Nat × Nat :=
  if h : 100 ≤ exp then levelLoop (lvl + 1) (exp - 100) else (lvl, exp)
termination_by exp
decreasing_by omega

/-- Crediting a quest reward (`bot.py`, `handle_quest_dialog`):
`db_user.experience += quest.reward_exp` followed by the level-up
loop. -/
def applyExperience (lvl exp gained : Nat) : Nat × Nat :=
  levelLoop lvl (exp + gained)

theorem levelLoop_eq : ∀ exp lvl : Nat, levelLoop lvl exp = (lvl + exp / 100, exp % 100) := by
  intro exp
  induction exp using Nat.strong_induction_on with
  | _ exp ih =>
    intro lvl
    rw [levelLoop]
    split
    · next h =>
      rw [ih (exp - 100) (by omega)]
      have h1 : lvl + 1 + (exp - 100) / 100 = lvl + exp / 100 := by omega
      have h2 : (exp - 100) % 100 = exp % 100 := by omega
      rw [h1, h2]
    · next h =>
      have h1 : exp / 100 = 0 := by omega
      have h2 : exp % 100 = exp := by omega
      rw [h1, h2, Nat.add_zero]

/-- C2: for every gain `g ≥ 0` and starting experience `e ∈ [0,100)`,
the reward loop leaves experience `(e+g) % 100` and raises the level by
`(e+g) / 100`, with no cap and no lost remainder; in particular a
single reward of 1200 from level 1 / 0 experience yields 12 level-ups
and 0 leftover experience. -/
theorem applyExperience_mod_div (lvl e g : Nat) (he : e < 100) :
    applyExperience lvl e g = (lvl + (e + g) / 100, (e + g) % 100) ∧
    applyExperience 1 0 1200 = (13, 0) := by
  constructor
  · exact levelLoop_eq (e + g) lvl
  · rw [applyExperience, levelLoop_eq]

theorem applyExperience_mod_div_witness :
    50 < 100 ∧
      (applyExperience 1 50 170 = (1 + (50 + 170) / 100, (50 + 170) % 100) ∧
        applyExperience 1 0 1200 = (13, 0)) :=
  ⟨by decide, applyExperience_mod_div 1 50 170 (by decide)⟩

/-- The fixed placeholder text returned by
`GigaChatAPI.generate_game_step` (`bot.py`) when the chat-completion
request fails. -/
def giga_error_placeholder : String :=
  "Произошла ошибка при обработке диалога GigaChat."

/-- `GigaChatAPI.request_access_token` (`bot.py`): on transport success
(`tokenResp = some tok`) it stores and yields the new token; on a
`RequestException` it logs and **re-raises**, modelled as
`Except.error ()`. -/
def request_access_token (tokenResp : Option String) : Except Unit String :=
  match tokenResp with
  | some tok => Except.ok tok
  | none => Except.error ()

/-- `GigaChatAPI.get_access_token` (`bot.py`): refreshes when there is
no cached token or the cached one is expired, otherwise returns the
cached token.  `cached` is `self.access_token`, `expired` the outcome
of the `datetime.utcnow() >= self.token_expiry` test. -/
def get_access_token (cached : Option String) (expired : Bool)
    (tokenResp : Option String) : Except Unit String :=
  match cached with
  | none => request_access_token tokenResp
  | some tok => if expired then request_access_token tokenResp else Except.ok tok

/-- `GigaChatAPI.generate_game_step` (`bot.py`): the bearer token is
fetched while building the headers, *outside* the `try` block; the
`try` only wraps the completion request itself, whose failure
(`chatResp = none`) is converted into `giga_error_placeholder`.  On
success the body content is `.strip()`-ped. -/
def generate_game_step (cached : Option String) (expired : Bool)
    (tokenResp chatResp : Option String) : Except Unit String :=
  match get_access_token cached expired tokenResp with
  | Except.error e => Except.error e
  | Except.ok _ =>
    match chatResp with
    | some content => Except.ok content.trim
    | none => Except.ok giga_error_placeholder

/-- C3 counterexample: with no cached token and a failing token-refresh
request, `generate_game_step` propagates the error instead of returning
the placeholder string, even though the completion transport itself
would have succeeded. -/
theorem generate_game_step_token_failure_propagates :
    generate_game_step none false none (some "Привет, путник!") = Except.error () := rfl

/-- C3 amended: *given that the bearer-token step succeeds* (cached
valid token, or successful refresh), `generate_game_step` never
propagates an error: a transport failure of the completion request
yields the human-readable placeholder, and any outcome yields some
`Except.ok` text. -/
theorem generate_game_step_placeholder (cached : Option String) (expired : Bool)
    (tokenResp : Option String) (tok : String)
    (htok : get_access_token cached expired tokenResp = Except.ok tok) :
    generate_game_step cached expired tokenResp none = Except.ok giga_error_placeholder ∧
      ∀ chatResp : Option String,
        ∃ s : String, generate_game_step cached expired tokenResp chatResp = Except.ok s := by
  constructor
  · rw [generate_game_step.eq_def, htok]
  · intro chatResp
    rw [generate_game_step.eq_def, htok]
    cases chatResp with
    | none => exact ⟨giga_error_placeholder, rfl⟩
    | some content => exact ⟨content.trim, rfl⟩

theorem generate_game_step_placeholder_witness :
    generate_game_step (some "токен") false none none = Except.ok giga_error_placeholder :=
  (generate_game_step_placeholder (some "токен") false none "токен" rfl).1

/-- Mutating the row returned by `query(...).first()` and committing:
replace the first element satisfying `p` by its image under `f`. -/
def updateFirst {α : Type} (p : α → Bool) (f : α → α) : List α → List α
  | [] => []
  | r :: rs => if p r then f r :: rs else r :: updateFirst p f rs

theorem updateFirst_append_cons {α : Type} (p : α → Bool) (f : α → α)
    (l₁ l₂ : List α) (row : α) (h₁ : ∀ r ∈ l₁, p r = false) (h₂ : p row = true) :
    updateFirst p f (l₁ ++ row :: l₂) = l₁ ++ f row :: l₂ := by
  induction l₁ with
  | nil => simp [updateFirst, h₂]
  | cons a l ih =>
    have ha : p a = false := h₁ a (List.mem_cons_self a l)
    simp only [List.cons_append, updateFirst, ha, Bool.false_eq_true, if_false, List.cons.injEq,
      true_and]
    exact ih fun r hr => h₁ r (List.mem_cons_of_mem a hr)

theorem updateFirst_length {α : Type} (p : α → Bool) (f : α → α) (l : List α) :
    (updateFirst p f l).length = l.length := by
  induction l with
  | nil => rfl
  | cons a l ih =>
    simp only [updateFirst]
    split <;> simp [ih]

theorem countP_updateFirst {α : Type} (p : α → Bool) (f : α → α)
    (hf : ∀ a, p (f a) = p a) (l : List α) :
    (updateFirst p f l).countP p = l.countP p := by
  induction l with
  | nil => rfl
  | cons a l ih =>
    simp only [updateFirst]
    split <;> simp [List.countP_cons, hf, ih]

theorem find?_append_cons {α : Type} (p : α → Bool) (l₁ l₂ : List α) (row : α)
    (h₁ : ∀ r ∈ l₁, p r = false) (h₂ : p row = true) :
    (l₁ ++ row :: l₂).find? p = some row := by
  induction l₁ with
  | nil => simp [List.find?, h₂]
  | cons a l ih =>
    have ha : p a = false := h₁ a (List.mem_cons_self a l)
    simp only [List.cons_append, List.find?, ha]
    exact ih fun r hr => h₁ r (List.mem_cons_of_mem a hr)

theorem find?_split {α : Type} {p : α → Bool} {l : List α} {row : α}
    (h : l.find? p = some row) :
    ∃ l₁ l₂, l = l₁ ++ row :: l₂ ∧ (∀ r ∈ l₁, p r = false) ∧ p row = true := by
  induction l with
  | nil => simp [List.find?] at h
  | cons a l ih =>
    by_cases ha : p a = true
    · simp only [List.find?, ha] at h
      have har : a = row := Option.some_injective α h
      refine ⟨[], l, ?_, by simp, ?_⟩
      · simp [har]
      · rw [← har]; exact ha
    · have ha' : p a = false := by simpa using ha
      simp only [List.find?, ha'] at h
      obtain ⟨l₁, l₂, hl, hall, hrow⟩ := ih h
      exact ⟨a :: l₁, l₂, by simp [hl], by
        intro r hr
        rcases List.mem_cons.mp hr with h1 | h1
        · rw [h1]; exact ha'
        · exact hall r h1, hrow⟩

/-- The row filter of the active-quest query in `handle_quest_dialog`
(`bot.py`): `user_id == ... , is_completed == False, current_stage < 6`. -/
def activeMatch (uid : Nat) (r : QuestProgress) : Bool :=
  r.user_id == uid && !r.is_completed && decide (r.current_stage < 6)

/-- The row filter of the progress lookup in `quest_start_callback`
(`bot.py`): `user_id == ... , quest_id == ...`. -/
def matchPair (uid qid : Nat) (r : QuestProgress) : Bool :=
  r.user_id == uid && r.quest_id == qid

/-- The find-or-create step of `quest_start_callback` (`bot.py`): if no
progress row exists for this (player, quest), create one with
`current_stage=0, is_completed=False`. -/
def findOrCreateProgress (uid qid : Nat) (rows : List QuestProgress) :
    List QuestProgress :=
  match rows.find? (matchPair uid qid) with
  | some _ => rows
  | none => rows ++ [⟨uid, qid, 0, false⟩]

/-- `quest_start_callback` (`bot.py`), restricted to its persistent
effect: look the quest up (silent return when absent), find or create
the progress row, call the generator (no persistent effect), then set
`progress.current_stage = 1` and commit. -/
def quest_start (quests : List Quest) (uid qid : Nat)
    (rows : List QuestProgress) : List QuestProgress :=
  match quests.find? (fun q => q.id == qid) with
  | none => rows
  | some _ =>
    updateFirst (matchPair uid qid) (fun r => { r with current_stage := 1 })
      (findOrCreateProgress uid qid rows)

/-- The reward/level summary appended to the generator reply in the
final-stage branch of `handle_quest_dialog` (`bot.py`). -/
def finalSummary (reward lvl exp : Nat) : String :=
  "\n\nЭто был финальный этап квеста! Вы получили " ++ toString reward ++
    " опыта.\nВаш уровень теперь: " ++ toString lvl ++ ", опыт: " ++ toString exp ++ "."

/-- `handle_quest_dialog` (`bot.py`), the `advance` operation.  `giga`
is the text returned by `generate_game_step` (possibly the failure
placeholder — it is used only in the reply, never in the state
transition).  Returns the new state and the reply sent to the player
(`none` in the silent no-op branches). -/
def handle_quest_dialog (giga : String) (st : BotState) : BotState × Option String :=
  match st.progresses.find? (activeMatch st.user.id) with
  | none => (st, none)
  | some row =>
    match st.quests.find? (fun q => q.id == row.quest_id) with
    | none => (st, none)
    | some q =>
      if 5 ≤ row.current_stage + 1 then
        let le := applyExperience st.user.level st.user.experience q.reward_exp
        ({ user := { st.user with level := le.1, experience := le.2 },
           quests := st.quests,
           progresses := updateFirst (activeMatch st.user.id)
             (fun r => { r with current_stage := r.current_stage + 1, is_completed := true })
             st.progresses,
           data := { st.data with in_quest := false } },
         some (giga ++ finalSummary q.reward_exp le.1 le.2))
      else
        ({ st with
            progresses := updateFirst (activeMatch st.user.id)
              (fun r => { r with current_stage := r.current_stage + 1 }) st.progresses },
         some giga)

theorem handle_quest_dialog_noop (giga : String) (st : BotState)
    (h : ∀ r ∈ st.progresses, activeMatch st.user.id r = false) :
    handle_quest_dialog giga st = (st, none) := by
  have hfind : st.progresses.find? (activeMatch st.user.id) = none := by
    apply List.find?_eq_none.mpr
    intro x hx
    simp [h x hx]
  unfold handle_quest_dialog
  rw [hfind]

/-- C1: on a progress row with `completed = false` and stage `s < 6`,
one `advance` call (`handle_quest_dialog`) sets the stage to exactly
`s + 1` — whatever text the generator returned, including the failure
placeholder — and sets `completed` to true exactly when the
post-increment stage has reached 5 (`5 ≤ s + 1`), never earlier and
never later. -/
theorem advance_increments_by_one (giga : String) (st : BotState)
    (l₁ l₂ : List QuestProgress) (row : QuestProgress) (q : Quest)
    (hsplit : st.progresses = l₁ ++ row :: l₂)
    (hskip : ∀ r ∈ l₁, activeMatch st.user.id r = false)
    (huid : row.user_id = st.user.id)
    (hcomp : row.is_completed = false)
    (hstage : row.current_stage < 6)
    (hq : st.quests.find? (fun x => x.id == row.quest_id) = some q) :
    ∃ row', (handle_quest_dialog giga st).1.progresses = l₁ ++ row' :: l₂ ∧
      row'.current_stage = row.current_stage + 1 ∧
      (row'.is_completed = true ↔ 5 ≤ row.current_stage + 1) := by
  have hrow : activeMatch st.user.id row = true := by
    simp [activeMatch, huid, hcomp, hstage]
  have hfind : st.progresses.find? (activeMatch st.user.id) = some row := by
    rw [hsplit]; exact find?_append_cons _ _ _ _ hskip hrow
  have hupd1 :
      updateFirst (activeMatch st.user.id)
          (fun r => { r with current_stage := r.current_stage + 1, is_completed := true })
          st.progresses =
        l₁ ++ ({ row with current_stage := row.current_stage + 1, is_completed := true } :
            QuestProgress) :: l₂ := by
    rw [hsplit]; exact updateFirst_append_cons _ _ _ _ _ hskip hrow
  have hupd2 :
      updateFirst (activeMatch st.user.id)
          (fun r => { r with current_stage := r.current_stage + 1 }) st.progresses =
        l₁ ++ ({ row with current_stage := row.current_stage + 1 } : QuestProgress) :: l₂ := by
    rw [hsplit]; exact updateFirst_append_cons _ _ _ _ _ hskip hrow
  unfold handle_quest_dialog
  rw [hfind]
  dsimp only
  rw [hq]
  dsimp only
  by_cases hfin : 5 ≤ row.current_stage + 1
  · rw [if_pos hfin]
    exact ⟨{ row with current_stage := row.current_stage + 1, is_completed := true },
      hupd1, rfl, by simp [hfin]⟩
  · rw [if_neg hfin]
    exact ⟨{ row with current_stage := row.current_stage + 1 },
      hupd2, rfl, by simp [hcomp, hfin]⟩

theorem advance_increments_by_one_witness :
    ∃ row',
      (handle_quest_dialog giga_error_placeholder
            ⟨⟨1, some "Гера", some "Маг", 3, 10⟩,
              [⟨10, "Пути-распутья", 1, 25, "Найти старосту", true⟩],
              [⟨1, 10, 2, false⟩], ⟨false, 0, true⟩⟩).1.progresses =
          [] ++ row' :: [] ∧
        row'.current_stage = 2 + 1 ∧ (row'.is_completed = true ↔ 5 ≤ 2 + 1) :=
  advance_increments_by_one giga_error_placeholder _ [] [] ⟨1, 10, 2, false⟩
    ⟨10, "Пути-распутья", 1, 25, "Найти старосту", true⟩
    rfl (by simp) rfl rfl (by decide) rfl

/-- C6: when the player has no active progress row (`completed = false`
and `current_stage < 6`) — in particular when every matching row is
already completed — `advance` is a silent no-op: the state is returned
untouched, no reply is produced, and in particular no reward is
credited a second time to an already-completed quest. -/
theorem advance_noop_without_active (giga : String) (st : BotState)
    (h : ∀ r ∈ st.progresses, activeMatch st.user.id r = false) :
    handle_quest_dialog giga st = (st, none) :=
  handle_quest_dialog_noop giga st h

theorem advance_noop_without_active_witness :
    handle_quest_dialog "Финал."
        ⟨⟨1, some "Гера", some "Маг", 3, 10⟩,
          [⟨10, "Пути-распутья", 1, 25, "Найти старосту", true⟩],
          [⟨1, 10, 5, true⟩], ⟨false, 0, true⟩⟩ =
      (⟨⟨1, some "Гера", some "Маг", 3, 10⟩,
          [⟨10, "Пути-распутья", 1, 25, "Найти старосту", true⟩],
          [⟨1, 10, 5, true⟩], ⟨false, 0, true⟩⟩, none) :=
  advance_noop_without_active "Финал." _ (by decide)

/-- C10: starting a quest whose progress row already exists sets that
row's stage to 1 unconditionally — overwriting any larger stage — while
leaving `is_completed` untouched; hence restarting a completed quest
yields stage 1 with `completed` still true, and `advance` on the
resulting state is still a no-op. -/
theorem start_overwrites_existing_stage (giga : String) (u : RPGUser)
    (quests : List Quest) (d : UserData) (l₁ l₂ : List QuestProgress)
    (row : QuestProgress) (qid : Nat)
    (hq : (quests.find? (fun q => q.id == qid)).isSome = true)
    (hrow : matchPair u.id qid row = true)
    (hskip : ∀ r ∈ l₁, matchPair u.id qid r = false) :
    quest_start quests u.id qid (l₁ ++ row :: l₂) =
        l₁ ++ ({ row with current_stage := 1 } : QuestProgress) :: l₂ ∧
      ({ row with current_stage := 1 } : QuestProgress).is_completed = row.is_completed ∧
      (row.is_completed = true →
        (∀ r ∈ l₁ ++ l₂, activeMatch u.id r = false) →
        handle_quest_dialog giga
            ⟨u, quests, l₁ ++ ({ row with current_stage := 1 } : QuestProgress) :: l₂, d⟩ =
          (⟨u, quests, l₁ ++ ({ row with current_stage := 1 } : QuestProgress) :: l₂, d⟩,
            none)) := by
  obtain ⟨q, hq'⟩ := Option.isSome_iff_exists.mp hq
  have hfind : (l₁ ++ row :: l₂).find? (matchPair u.id qid) = some row :=
    find?_append_cons _ _ _ _ hskip hrow
  refine ⟨?_, rfl, ?_⟩
  · unfold quest_start
    rw [hq']
    unfold findOrCreateProgress
    rw [hfind]
    exact updateFirst_append_cons _ _ _ _ _ hskip hrow
  · intro hc hall
    apply handle_quest_dialog_noop
    intro r hr
    rcases List.mem_append.mp hr with h1 | h1
    · exact hall r (List.mem_append.mpr (Or.inl h1))
    · rcases List.mem_cons.mp h1 with h2 | h2
      · rw [h2]; simp [activeMatch, hc]
      · exact hall r (List.mem_append.mpr (Or.inr h2))

theorem start_overwrites_existing_stage_witness :
    handle_quest_dialog "Поехали."
        ⟨⟨1, some "Гера", some "Маг", 3, 10⟩,
          [⟨10, "Пути-распутья", 1, 25, "Найти старосту", true⟩],
          [⟨1, 10, 1, true⟩], ⟨false, 0, true⟩⟩ =
      (⟨⟨1, some "Гера", some "Маг", 3, 10⟩,
          [⟨10, "Пути-распутья", 1, 25, "Найти старосту", true⟩],
          [⟨1, 10, 1, true⟩], ⟨false, 0, true⟩⟩, none) :=
  (start_overwrites_existing_stage "Поехали." ⟨1, some "Гера", some "Маг", 3, 10⟩
      [⟨10, "Пути-распутья", 1, 25, "Найти старосту", true⟩] ⟨false, 0, true⟩
      [] [] ⟨1, 10, 5, true⟩ 10 (by decide) (by decide) (by simp)).2.2 rfl (by simp)

/-- Number of progress rows stored for one (player, quest) pair. -/
def countMatching (uid qid : Nat) (rows : List QuestProgress) : Nat :=
  rows.countP (matchPair uid qid)

theorem findOrCreate_find (uid qid : Nat) (rows : List QuestProgress) :
    ∃ row, (findOrCreateProgress uid qid rows).find? (matchPair uid qid) = some row := by
  unfold findOrCreateProgress
  cases hfind : rows.find? (matchPair uid qid) with
  | some r => exact ⟨r, hfind⟩
  | none =>
    refine ⟨⟨uid, qid, 0, false⟩, ?_⟩
    have hall : ∀ r ∈ rows, matchPair uid qid r = false := fun r hr => by
      simpa using List.find?_eq_none.mp hfind r hr
    exact find?_append_cons _ rows [] _ hall (by simp [matchPair])

theorem quest_start_count (quests : List Quest) (uid qid : Nat)
    (rows : List QuestProgress)
    (hq : (quests.find? (fun q => q.id == qid)).isSome = true)
    (hinv : countMatching uid qid rows ≤ 1) :
    countMatching uid qid (quest_start quests uid qid rows) = 1 := by
  obtain ⟨q, hq'⟩ := Option.isSome_iff_exists.mp hq
  unfold quest_start
  rw [hq']
  dsimp only
  unfold countMatching
  rw [countP_updateFirst (matchPair uid qid)
    (fun r => { r with current_stage := 1 }) (fun a => rfl)]
  unfold findOrCreateProgress
  cases hfind : rows.find? (matchPair uid qid) with
  | none =>
    have hzero : rows.countP (matchPair uid qid) = 0 := by
      rw [List.countP_eq_zero]
      intro a ha
      simpa using List.find?_eq_none.mp hfind a ha
    simp [List.countP_append, hzero, List.countP_cons, matchPair]
  | some r =>
    have hpos : 0 < rows.countP (matchPair uid qid) := by
      rw [List.countP_pos_iff]
      obtain ⟨l₁, l₂, hl, _, hrowm⟩ := find?_split hfind
      exact ⟨r, by rw [hl]; simp, hrowm⟩
    unfold countMatching at hinv
    dsimp only
    omega

/-- C4: `start` is idempotent on the QuestProgress identity.  Given the
at-most-one-row invariant, after one `start` there is exactly one row
for the (player, quest) pair, after two `start`s still exactly one;
creation (at stage 0) happens only when no row existed, an existing row
is reused without growing the table, and no matching row is ever left
at stage 0 by a `start` call. -/
theorem start_idempotent (quests : List Quest) (uid qid : Nat)
    (rows : List QuestProgress)
    (hq : (quests.find? (fun q => q.id == qid)).isSome = true)
    (hinv : countMatching uid qid rows ≤ 1) :
    countMatching uid qid (quest_start quests uid qid rows) = 1 ∧
      countMatching uid qid
          (quest_start quests uid qid (quest_start quests uid qid rows)) = 1 ∧
      (rows.find? (matchPair uid qid) = none →
        findOrCreateProgress uid qid rows = rows ++ [⟨uid, qid, 0, false⟩]) ∧
      ((rows.find? (matchPair uid qid)).isSome = true →
        (quest_start quests uid qid rows).length = rows.length) ∧
      (∀ r ∈ quest_start quests uid qid rows,
        matchPair uid qid r = true → ¬r.current_stage = 0) := by
  obtain ⟨q, hq'⟩ := Option.isSome_iff_exists.mp hq
  have h1 : countMatching uid qid (quest_start quests uid qid rows) = 1 :=
    quest_start_count quests uid qid rows hq hinv
  refine ⟨h1, quest_start_count quests uid qid _ hq (by omega), ?_, ?_, ?_⟩
  · intro h
    unfold findOrCreateProgress
    rw [h]
  · intro h
    obtain ⟨r, hr⟩ := Option.isSome_iff_exists.mp h
    unfold quest_start
    rw [hq']
    dsimp only
    unfold findOrCreateProgress
    rw [hr]
    exact updateFirst_length _ _ rows
  · intro r hr hmatch
    obtain ⟨row, hfind1⟩ := findOrCreate_find uid qid rows
    obtain ⟨l₁, l₂, hl, hall, hrowm⟩ := find?_split hfind1
    unfold quest_start at hr h1
    rw [hq'] at hr h1
    dsimp only at hr h1
    rw [hl, updateFirst_append_cons _ _ _ _ _ hall hrowm] at hr h1
    have hl₁ : l₁.countP (matchPair uid qid) = 0 :=
      List.countP_eq_zero.mpr fun a ha => by simp [hall a ha]
    have hmrow :
        matchPair uid qid ({ row with current_stage := 1 } : QuestProgress) = true := hrowm
    unfold countMatching at h1
    rw [List.countP_append, List.countP_cons, hl₁, hmrow] at h1
    have hl₂ : l₂.countP (matchPair uid qid) = 0 := by
      simp at h1
      exact List.countP_eq_zero.mpr fun a ha => by simp [h1 a ha]
    rcases List.mem_append.mp hr with hm | hm
    · exact absurd hmatch (by simp [hall r hm])
    · rcases List.mem_cons.mp hm with hm2 | hm2
      · rw [hm2]; simp
      · exact absurd hmatch (by simp [List.countP_eq_zero.mp hl₂ r hm2])

theorem start_idempotent_witness :
    ([(⟨10, "Пути-распутья", 1, 25, "Найти старосту", true⟩ : Quest)].find?
          (fun q => q.id == 10)).isSome = true ∧
      countMatching 1 10 [] ≤ 1 ∧
      (countMatching 1 10
          (quest_start [⟨10, "Пути-распутья", 1, 25, "Найти старосту", true⟩] 1 10 []) = 1 ∧
        countMatching 1 10
            (quest_start [⟨10, "Пути-распутья", 1, 25, "Найти старосту", true⟩] 1 10
              (quest_start [⟨10, "Пути-распутья", 1, 25, "Найти старосту", true⟩] 1 10 [])) =
          1 ∧
        (([] : List QuestProgress).find? (matchPair 1 10) = none →
          findOrCreateProgress 1 10 [] = [] ++ [⟨1, 10, 0, false⟩]) ∧
        ((([] : List QuestProgress).find? (matchPair 1 10)).isSome = true →
          (quest_start [⟨10, "Пути-распутья", 1, 25, "Найти старосту", true⟩] 1 10 []).length =
            ([] : List QuestProgress).length) ∧
        (∀ r ∈ quest_start [⟨10, "Пути-распутья", 1, 25, "Найти старосту", true⟩] 1 10 [],
          matchPair 1 10 r = true → ¬r.current_stage = 0)) :=
  ⟨by decide, by decide,
    start_idempotent [⟨10, "Пути-распутья", 1, 25, "Найти старосту", true⟩] 1 10 []
      (by decide) (by decide)⟩

/-- Python truthiness of a nullable text column: `None` and the empty
string are falsy.  Used for the `if user_obj.character_name and
user_obj.character_class` test in `bot.py`. -/
def truthyStr : Option String → Bool
  | none => false
  | some s => !s.isEmpty

/-- How a nullable column renders inside an f-string (`None` prints as
`"None"`). -/
def showOpt : Option String → String
  | none => "None"
  | some s => s

/-- Uppercase map of Python `str.capitalize` for the first character,
restricted to the Latin and Cyrillic letters this bot works with. -/
def pyUpperChar (c : Char) : Char :=
  if ('a' ≤ c && c ≤ 'z') || ('а' ≤ c && c ≤ 'я') then Char.ofNat (c.toNat - 32)
  else if c = 'ё' then 'Ё'
  else c

/-- Lowercase map of Python `str.capitalize` for the remaining
characters, restricted to the Latin and Cyrillic letters this bot works
with. -/
def pyLowerChar (c : Char) : Char :=
  if ('A' ≤ c && c ≤ 'Z') || ('А' ≤ c && c ≤ 'Я') then Char.ofNat (c.toNat + 32)
  else if c = 'Ё' then 'ё'
  else c

/-- Python `str.capitalize`, as applied by `handle_text` (`bot.py`) to
the class answer: first character title-cased, remainder lowercased. -/
def pyCapitalize (s : String) : String :=
  match s.data with
  | [] => ""
  | c :: cs => String.mk (pyUpperChar c :: cs.map pyLowerChar)

/-- The outbound message kinds of the character-creation flow and
free-text router of `bot.py`. -/
inductive Reply where
  | alreadyExists (nm cl : String)
  | askName
  | askClass
  | created (nm cl : String) (lvl exp : Nat)
  | unknown
  | quest (r : Option String)
deriving Repr, DecidableEq

/-- `create_character` (`bot.py`), the `beginCreation` operation: if
the character already has a (truthy) name and class, only report it;
otherwise prompt for a name and set `creating_character = True`,
`step = 1`.  The stored user row is returned unchanged in both
branches. -/
def create_character (u : RPGUser) (d : UserData) : RPGUser × UserData × Reply :=
  if truthyStr u.character_name && truthyStr u.character_class then
    (u, d, Reply.alreadyExists (showOpt u.character_name) (showOpt u.character_class))
  else
    (u, { d with creating_character := true, step := 1 }, Reply.askName)

/-- The tail of `handle_text` (`bot.py`): when not inside the
character-creation steps, route to the quest dialog when `in_quest` is
set, otherwise answer with the unknown-command message. -/
def handle_text_rest (giga : String) (st : BotState) : BotState × Reply :=
  if st.data.in_quest then
    ((handle_quest_dialog giga st).1, Reply.quest (handle_quest_dialog giga st).2)
  else (st, Reply.unknown)

/-- `handle_text` (`bot.py`): the free-text router.  During character
creation, step 1 commits the name alone and asks for the class; step 2
commits the capitalized class, resets the session flags and confirms.
Otherwise the message is routed to the quest dialog or rejected. -/
def handle_text (giga text : String) (st : BotState) : BotState × Reply :=
  if st.data.creating_character then
    if st.data.step = 1 then
      ({ st with user := { st.user with character_name := some text },
                 data := { st.data with step := 2 } }, Reply.askClass)
    else if st.data.step = 2 then
      ({ st with user := { st.user with character_class := some (pyCapitalize text) },
                 data := { st.data with creating_character := false, step := 0 } },
       Reply.created (showOpt st.user.character_name) (showOpt (some (pyCapitalize text)))
         st.user.level st.user.experience)
    else handle_text_rest giga st
  else handle_text_rest giga st

/-- `list_quests` (`bot.py`): `filter(required_level <= level,
is_active)` on the catalog, then skip quests for which a completed
progress row of this player exists; order is catalog order. -/
def hasCompleted (progresses : List QuestProgress) (uid qid : Nat) : Bool :=
  (progresses.find?
    (fun r => r.user_id == uid && r.quest_id == qid && r.is_completed)).isSome

def list_quests (quests : List Quest) (progresses : List QuestProgress)
    (u : RPGUser) : List Quest :=
  (quests.filter (fun q => decide (q.required_level ≤ u.level) && q.is_active)).filter
    (fun q => !hasCompleted progresses u.id q.id)

/-- C5 counterexample: running the creation flow from a fresh user
(`/createcharacter`, then the name answer) commits a user row whose
`character_name` is set while `character_class` is still NULL — the
both-or-neither invariant does not hold between the two steps. -/
theorem partial_character_persisted :
    (handle_text "" "Алиса"
          ⟨⟨1, none, none, 1, 0⟩, [], [],
            (create_character ⟨1, none, none, 1, 0⟩ ⟨false, 0, false⟩).2.1⟩).1.user.character_name =
        some "Алиса" ∧
      (handle_text "" "Алиса"
            ⟨⟨1, none, none, 1, 0⟩, [], [],
              (create_character ⟨1, none, none, 1, 0⟩ ⟨false, 0, false⟩).2.1⟩).1.user.character_class =
        none :=
  ⟨rfl, rfl⟩

/-- Persistent state after `/createcharacter` followed by the name
answer `nm` (step 1 of `handle_text`). -/
def afterName (u : RPGUser) (d : UserData) (nm : String) : BotState :=
  (handle_text "" nm ⟨(create_character u d).1, [], [], (create_character u d).2.1⟩).1

/-- Persistent state after additionally answering the class question
with `cl` (step 2 of `handle_text`). -/
def afterClass (u : RPGUser) (d : UserData) (nm cl : String) : BotState :=
  (handle_text "" cl (afterName u d nm)).1

/-- C5 amended: for a user without a full character, the completed
creation flow does leave name and class both set; but after the name
step alone the stored row has the name set while the class is whatever
it was before (NULL for a fresh user) — the invariant holds at the
flow's ends, not between the two commits. -/
theorem creation_flow_window (u : RPGUser) (d : UserData) (nm cl : String)
    (h : (truthyStr u.character_name && truthyStr u.character_class) = false) :
    (afterName u d nm).user.character_name = some nm ∧
      (afterName u d nm).user.character_class = u.character_class ∧
      (afterClass u d nm cl).user.character_name = some nm ∧
      (afterClass u d nm cl).user.character_class = some (pyCapitalize cl) := by
  refine ⟨?_, ?_, ?_, ?_⟩ <;>
    simp [afterClass, afterName, create_character, handle_text, h]

theorem creation_flow_window_witness :
    (truthyStr (none : Option String) && truthyStr (none : Option String)) = false ∧
      ((afterName ⟨1, none, none, 1, 0⟩ ⟨false, 0, false⟩ "Алиса").user.character_name =
          some "Алиса" ∧
        (afterName ⟨1, none, none, 1, 0⟩ ⟨false, 0, false⟩ "Алиса").user.character_class =
          (⟨1, none, none, 1, 0⟩ : RPGUser).character_class ∧
        (afterClass ⟨1, none, none, 1, 0⟩ ⟨false, 0, false⟩ "Алиса" "маг").user.character_name =
          some "Алиса" ∧
        (afterClass ⟨1, none, none, 1, 0⟩ ⟨false, 0, false⟩ "Алиса" "маг").user.character_class =
          some (pyCapitalize "маг")) :=
  ⟨by decide, creation_flow_window ⟨1, none, none, 1, 0⟩ ⟨false, 0, false⟩ "Алиса" "маг" (by decide)⟩

/-- Recognizer for the `AlreadyExists` outcome of `create_character`. -/
def isAlreadyExists : Reply → Bool
  | Reply.alreadyExists _ _ => true
  | _ => false

/-- C8: `beginCreation` reports `AlreadyExists` iff the stored
character has both name and class set (truthy); otherwise it moves the
dialog to awaiting-Name (`creating_character = true, step = 1`) and
asks for a name; the stored user row is never mutated. -/
theorem begin_creation_contract (u : RPGUser) (d : UserData) :
    (isAlreadyExists (create_character u d).2.2 = true ↔
        truthyStr u.character_name = true ∧ truthyStr u.character_class = true) ∧
      (create_character u d).2.1 =
        (if truthyStr u.character_name && truthyStr u.character_class then d
         else { d with creating_character := true, step := 1 }) ∧
      (create_character u d).2.2 =
        (if truthyStr u.character_name && truthyStr u.character_class then
          Reply.alreadyExists (showOpt u.character_name) (showOpt u.character_class)
         else Reply.askName) ∧
      (create_character u d).1 = u := by
  by_cases hb : (truthyStr u.character_name && truthyStr u.character_class) = true
  · have hb2 : truthyStr u.character_name = true ∧ truthyStr u.character_class = true := by
      simpa using hb
    simp [create_character, isAlreadyExists, hb, hb2]
  · have hb' : (truthyStr u.character_name && truthyStr u.character_class) = false := by
      simpa using hb
    have hb3 : ¬(truthyStr u.character_name = true ∧ truthyStr u.character_class = true) := by
      simpa using hb
    simp [create_character, isAlreadyExists, hb', hb3]

theorem begin_creation_contract_witness :
    (isAlreadyExists (create_character ⟨1, some "Гера", some "Маг", 1, 0⟩ ⟨false, 0, false⟩).2.2 =
          true ↔
        truthyStr (some "Гера") = true ∧ truthyStr (some "Маг") = true) ∧
      (create_character ⟨1, some "Гера", some "Маг", 1, 0⟩ ⟨false, 0, false⟩).2.1 =
        (if truthyStr (some "Гера") && truthyStr (some "Маг") then (⟨false, 0, false⟩ : UserData)
         else { (⟨false, 0, false⟩ : UserData) with creating_character := true, step := 1 }) ∧
      (create_character ⟨1, some "Гера", some "Маг", 1, 0⟩ ⟨false, 0, false⟩).2.2 =
        (if truthyStr (some "Гера") && truthyStr (some "Маг") then
          Reply.alreadyExists (showOpt (some "Гера")) (showOpt (some "Маг"))
         else Reply.askName) ∧
      (create_character ⟨1, some "Гера", some "Маг", 1, 0⟩ ⟨false, 0, false⟩).1 =
        ⟨1, some "Гера", some "Маг", 1, 0⟩ :=
  begin_creation_contract ⟨1, some "Гера", some "Маг", 1, 0⟩ ⟨false, 0, false⟩

/-- C9: the class answer is stored as its Python `capitalize`
normalization — first letter capitalized, remainder lowercased, with no
validation against any class list — and the session is reset to Idle
(`creating_character = false, step = 0`); e.g. both «маг» and «МАГ» are
stored as «Маг». -/
theorem class_step_normalizes (giga text : String) (st : BotState)
    (hc : st.data.creating_character = true) (hs : st.data.step = 2) :
    (handle_text giga text st).1.user.character_class = some (pyCapitalize text) ∧
      (handle_text giga text st).1.data.creating_character = false ∧
      (handle_text giga text st).1.data.step = 0 ∧
      pyCapitalize "маг" = "Маг" ∧ pyCapitalize "МАГ" = "Маг" := by
  refine ⟨?_, ?_, ?_, by decide, by decide⟩ <;> simp [handle_text, hc, hs]

theorem class_step_normalizes_witness :
    (handle_text "" "МАГ"
            ⟨⟨1, some "Гера", none, 1, 0⟩, [], [], ⟨true, 2, false⟩⟩).1.user.character_class =
        some (pyCapitalize "МАГ") ∧
      (handle_text "" "МАГ"
            ⟨⟨1, some "Гера", none, 1, 0⟩, [], [], ⟨true, 2, false⟩⟩).1.data.creating_character =
        false ∧
      (handle_text "" "МАГ"
            ⟨⟨1, some "Гера", none, 1, 0⟩, [], [], ⟨true, 2, false⟩⟩).1.data.step = 0 ∧
      pyCapitalize "маг" = "Маг" ∧ pyCapitalize "МАГ" = "Маг" :=
  class_step_normalizes "" "МАГ" ⟨⟨1, some "Гера", none, 1, 0⟩, [], [], ⟨true, 2, false⟩⟩ rfl rfl

theorem hasCompleted_iff (progresses : List QuestProgress) (uid qid : Nat) :
    hasCompleted progresses uid qid = true ↔
      ∃ r ∈ progresses, r.user_id = uid ∧ r.quest_id = qid ∧ r.is_completed = true := by
  unfold hasCompleted
  rw [List.find?_isSome]
  constructor
  · rintro ⟨r, hr, hp⟩
    simp only [Bool.and_eq_true, beq_iff_eq] at hp
    exact ⟨r, hr, hp.1.1, hp.1.2, hp.2⟩
  · rintro ⟨r, hr, h1, h2, h3⟩
    exact ⟨r, hr, by simp [h1, h2, h3]⟩

/-- C7: `list_quests` returns, in catalog order, exactly the active
quests whose required level is at most the character's level and for
which the player has no completed progress row. -/
theorem list_quests_spec (quests : List Quest) (progresses : List QuestProgress)
    (u : RPGUser) :
    list_quests quests progresses u =
        quests.filter (fun q => !hasCompleted progresses u.id q.id &&
          (decide (q.required_level ≤ u.level) && q.is_active)) ∧
      ∀ q : Quest, q ∈ list_quests quests progresses u ↔
        q ∈ quests ∧ q.is_active = true ∧ q.required_level ≤ u.level ∧
          ¬∃ r ∈ progresses, r.user_id = u.id ∧ r.quest_id = q.id ∧ r.is_completed = true := by
  constructor
  · exact List.filter_filter _ _
  · intro q
    constructor
    · intro hmem
      obtain ⟨hm1, hp2⟩ := List.mem_filter.mp hmem
      obtain ⟨hq, hp1⟩ := List.mem_filter.mp hm1
      rw [Bool.and_eq_true, decide_eq_true_eq] at hp1
      rw [Bool.not_eq_true'] at hp2
      refine ⟨hq, hp1.2, hp1.1, ?_⟩
      intro hex
      have h := (hasCompleted_iff progresses u.id q.id).mpr hex
      rw [hp2] at h
      simp at h
    · rintro ⟨hq, hact, hlev, hnc⟩
      refine List.mem_filter.mpr ⟨List.mem_filter.mpr ⟨hq, ?_⟩, ?_⟩
      · rw [Bool.and_eq_true, decide_eq_true_eq]
        exact ⟨hlev, hact⟩
      · rw [Bool.not_eq_true']
        cases hhc : hasCompleted progresses u.id q.id
        · rfl
        · exact absurd ((hasCompleted_iff progresses u.id q.id).mp hhc) hnc

theorem list_quests_spec_witness :
    list_quests [⟨10, "Пути-распутья", 1, 25, "Найти старосту", true⟩]
          [⟨1, 10, 5, true⟩] ⟨1, some "Гера", some "Маг", 3, 10⟩ =
        [⟨10, "Пути-распутья", 1, 25, "Найти старосту", true⟩].filter
          (fun q => !hasCompleted [⟨1, 10, 5, true⟩] 1 q.id &&
            (decide (q.required_level ≤ 3) && q.is_active)) ∧
      ∀ q : Quest,
        q ∈ list_quests [⟨10, "Пути-распутья", 1, 25, "Найти старосту", true⟩]
            [⟨1, 10, 5, true⟩] ⟨1, some "Гера", some "Маг", 3, 10⟩ ↔
          q ∈ [⟨10, "Пути-распутья", 1, 25, "Найти старосту", true⟩] ∧ q.is_active = true ∧
            q.required_level ≤ 3 ∧
            ¬∃ r ∈ [(⟨1, 10, 5, true⟩ : QuestProgress)],
              r.user_id = 1 ∧ r.quest_id = q.id ∧ r.is_completed = true :=
  list_quests_spec [⟨10, "Пути-распутья", 1, 25, "Найти старосту", true⟩]
    [⟨1, 10, 5, true⟩] ⟨1, some "Гера", some "Маг", 3, 10⟩
